import Mathlib

/-!
Verification of the partial.js SQLite layer (src/lib/sqlite.js).

The embedding below translates the statement-assembly and callback logic of
the source file into executable Lean definitions.  SQL text is modelled as
`List Char`; JavaScript objects (records, parameter maps) are modelled as
insertion-ordered association lists `List (String × Val)`.  The companion
modules `builders` and `utils` are not part of the provided sources, so the
handful of entry points the SQLite layer uses from them (schema lookup,
primary-key lookup, the parameter/query/order builder shapes, date
formatting) are modelled from the specification, as marked on each
definition.
-/

/-- Convert a string literal to the character-list representation used for
SQL text throughout this development. -/
def S (s : String) : List Char := s.data

/-- The left-brace character, written via its code point. -/
def lbrace : Char := Char.ofNat 123

/-- The right-brace character, written via its code point. -/
def rbrace : Char := Char.ofNat 125

/-- Decimal digit character for a value below ten. -/
def digitChar (n : Nat) : Char := Char.ofNat (48 + n)

/-- Fuel-driven accumulator rendering of a natural number in decimal,
mirroring JavaScript number-to-string conversion for nonnegative integers. -/
def natCharsAux : Nat → Nat → List Char → List Char
  | 0, _, acc => acc
  | fuel + 1, n, acc =>
    if n < 10 then digitChar n :: acc
    else natCharsAux fuel (n / 10) (digitChar (n % 10) :: acc)

/-- Decimal rendering of a natural number (JavaScript `'' + n`). -/
def natChars (n : Nat) : List Char := natCharsAux (n + 1) n []

/-- Modelled from the spec: fixed-width zero-padded decimal field used by the
missing `utils` date formatter (`yyyy-MM-dd HH:mm:ss`, zero-padded,
fixed-width). -/
def padNat (w n : Nat) : List Char :=
  List.replicate (w - (natChars n).length) '0' ++ natChars n

/-- A calendar timestamp as consumed by the date formatter. -/
structure DateTime where
  y : Nat
  mo : Nat
  d : Nat
  h : Nat
  mi : Nat
  s : Nat
deriving DecidableEq

/-- Field bounds satisfied by every actual calendar timestamp. -/
def ValidDate (t : DateTime) : Prop :=
  t.y < 10000 ∧ t.mo < 100 ∧ t.d < 100 ∧ t.h < 100 ∧ t.mi < 100 ∧ t.s < 100

/-- Modelled from the spec: the missing `utils.format` date rendering
`yyyy-MM-dd HH:mm:ss` (fixed-width, zero-padded, 24-hour clock, no timezone
conversion). -/
def formatDate (t : DateTime) : List Char :=
  padNat 4 t.y ++ S "-" ++ padNat 2 t.mo ++ S "-" ++ padNat 2 t.d ++ S " " ++
  padNat 2 t.h ++ S ":" ++ padNat 2 t.mi ++ S ":" ++ padNat 2 t.s

/-- Scalar values that can appear in a record or parameter map. -/
inductive Val where
  | str (s : List Char)
  | num (n : Int)
  | boolean (b : Bool)
  | null
  | undef
  | date (t : DateTime)
deriving DecidableEq

/-- JavaScript property read `m[k]`: an absent key yields `undefined`. -/
def objGetD (m : List (String × Val)) (k : String) : Val :=
  match m.find? (fun p => p.1 == k) with
  | some p => p.2
  | none => Val.undef

/-- JavaScript property read as an `Option`, `none` when the key is absent. -/
def objGet (m : List (String × Val)) (k : String) : Option Val :=
  (m.find? (fun p => p.1 == k)).map (fun p => p.2)

/-- JavaScript property write `m[k] = v`: overwrite an existing key in place,
otherwise append the new entry. -/
def objSet (m : List (String × Val)) (k : String) (v : Val) : List (String × Val) :=
  if m.any (fun p => p.1 == k) then
    m.map (fun p => if p.1 == k then (k, v) else p)
  else
    m ++ [(k, v)]

/-- JavaScript `name.indexOf(c)` on the character-list string model: first index of the
character, `-1` when absent. -/
def jsIndexOf (s : List Char) (c : Char) : Int :=
  match s.findIdx? (fun x => x = c) with
  | some i => (i : Int)
  | none => -1

/-- JavaScript `name.substring(start)` on the character-list model: JavaScript clamps a
negative start to zero. -/
def jsSubstring (s : List Char) (start : Int) : List Char :=
  s.drop start.toNat

/-- Function `prepareSchema` from src/lib/sqlite.js lines 48-54: look up the marker
character, and when the name starts with it, switch to the index of the
separator; return the substring past that index. -/
def prepareSchema (name : List Char) : List Char :=
  let index := jsIndexOf name '#'
  let index := if index = 0 then jsIndexOf name '/' else index
  jsSubstring name (index + 1)

/-- Modelled from the spec: the missing `builders.ParameterBuilder`, an
accumulator of `(name, value)` pairs whose `add` appends one entry. -/
structure ParameterBuilder where
  params : List (String × Val)
deriving DecidableEq

/-- Modelled from the spec: `ParameterBuilder.add(column, value)` appends one
entry to the accumulated pair list. -/
def ParameterBuilder.add (b : ParameterBuilder) (k : String) (v : Val) : ParameterBuilder :=
  ⟨b.params ++ [(k, v)]⟩

/-- Fold a whole pair list into a builder through repeated `add` calls. -/
def ParameterBuilder.addAll (b : ParameterBuilder) (l : List (String × Val)) : ParameterBuilder :=
  l.foldl (fun b p => b.add p.1 p.2) b

/-- Modelled from the spec: the missing `builders.QueryBuilder`, a filter
builder holding rendered fragments (joined with single spaces into the WHERE
body) together with the parameter pairs its comparisons registered. -/
structure QueryBuilder where
  builder : List (List Char)
  params : List (String × Val)
deriving DecidableEq

/-- Modelled from the spec: `QueryBuilder.hasValue()` — the builder has
accumulated at least one fragment. -/
def QueryBuilder.hasValue (b : QueryBuilder) : Bool := !b.builder.isEmpty

/-- One directive of an order builder, a column name and a direction tag
(the source compares the tag against the string `desc`). -/
structure OrderDirective where
  name : String
  type : String
deriving DecidableEq

/-- Modelled from the spec: the missing `builders.OrderBuilder`, a list of
sort directives. -/
structure OrderBuilder where
  builder : List OrderDirective
deriving DecidableEq

/-- Replace every occurrence of one character by another
(`value.replace(/c/g, r)` for a single-character pattern). -/
def replaceAllChar (c r : Char) (s : List Char) : List Char :=
  s.map (fun x => if x = c then r else x)

/-- Remove every occurrence of one character
(`value.replace(/c/g, '')` for a single-character pattern). -/
def removeAllChar (c : Char) (s : List Char) : List Char :=
  s.filter (fun x => !(x = c))

/-- Value normalization inside `make`: a date is rendered through the date
formatter, every other value is passed through unchanged. -/
def makeVal : Val → Val
  | Val.date t => Val.str (formatDate t)
  | v => v

/-- The key/value normalization loop of `make` (src/lib/sqlite.js lines
214-221): every key gains a `$` prefix and every value goes through
`makeVal`, preserving insertion order. -/
def makeMap (m : List (String × Val)) : List (String × Val) :=
  m.map (fun p => ("$" ++ p.1, makeVal p.2))

/-- The possible arguments of `SQLite.prototype.make`. -/
inductive MakeInput where
  | nullV
  | strV (s : List Char)
  | qbV (b : QueryBuilder)
  | pbV (b : ParameterBuilder)
  | mapV (m : List (String × Val))
deriving DecidableEq

/-- The possible results of `SQLite.prototype.make`. -/
inductive MakeOutput where
  | text (s : List Char)
  | params (m : List (String × Val))
deriving DecidableEq

/-- Method `SQLite.prototype.make` (src/lib/sqlite.js lines 196-224): null or
undefined yields an empty parameter object; a string is normalized textually
(`\x7b` becomes `$`, `\x7d` is removed); a QueryBuilder or ParameterBuilder
contributes its `params`; any mapping is passed through the key/value
normalization loop. -/
def make : MakeInput → MakeOutput
  | MakeInput.nullV => MakeOutput.params []
  | MakeInput.strV s => MakeOutput.text (removeAllChar rbrace (replaceAllChar lbrace '$' s))
  | MakeInput.qbV b => MakeOutput.params (makeMap b.params)
  | MakeInput.pbV b => MakeOutput.params (makeMap b.params)
  | MakeInput.mapV m => MakeOutput.params (makeMap m)

/-- Specification-side description of template normalization, written from
the words of the spec: in one ordered pass every left brace becomes `$`,
every right brace is dropped, and every other character is kept unchanged. -/
def templateNormSpec (s : List Char) : List Char :=
  s.foldr
    (fun c acc =>
      if c = lbrace then '$' :: acc else if c = rbrace then acc else c :: acc) []

/-- Column metadata of a schema entry: the primary-key flag and the flag
telling whether the caller supplies the column's value on insert
(`primary.insert` in the source; its negation marks an engine-generated
key). -/
structure ColumnDesc where
  isPrimary : Bool
  insert : Bool
deriving DecidableEq

/-- A schema: an insertion-ordered mapping from column name to metadata. -/
def Schema : Type := List (String × ColumnDesc)

/-- The primary-key descriptor returned by `builders.primaryKey`: the column
name together with its caller-supplied-on-insert flag. -/
structure PrimaryDesc where
  name : String
  insert : Bool
deriving DecidableEq

/-- Modelled from the spec: the missing `builders.schema(name)` lookup of the
process-wide schema registry; `none` plays the role of the source's `null`
result for an unregistered name. -/
def schemaLookup (reg : List (String × Schema)) (name : String) : Option Schema :=
  (reg.find? (fun p => p.1 == name)).map (fun p => p.2)

/-- Modelled from the spec: the missing `builders.primaryKey(name)` — the
descriptor of the (at most one) column flagged as primary key, or `none`. -/
def primaryKeyOf (obj : Schema) : Option PrimaryDesc :=
  match obj.find? (fun p => p.2.isPrimary) with
  | some p => some ⟨p.1, p.2.insert⟩
  | none => none

/-- Enumerated errors thrown synchronously by the statement operations
(the `errors` array of src/lib/sqlite.js line 24). -/
inductive JsError where
  | schemaNotDefined
  | primaryKeyNotDefined
  | invalidQueryBuilder
  | invalidOrderBuilder
deriving DecidableEq

/-- Runtime faults of the callback continuations: dereferencing a property
of `null` throws a TypeError in JavaScript. -/
inductive JsFault where
  | typeError
deriving DecidableEq

/-- An error value reported by the sqlite3 driver. -/
structure DriverErr where
  msg : String
deriving DecidableEq

/-- The object the driver hands to a successful `run` callback:
`this.lastID` and `this.changes`. -/
structure RunInfo where
  lastID : Nat
  changes : Nat
deriving DecidableEq

/-- The three possible outcomes of the prepare/run pair inside
`SQLite.prototype.execute`. -/
inductive ExecOutcome where
  | prepareErr (e : DriverErr)
  | runErr (e : DriverErr)
  | ok (info : RunInfo)
deriving DecidableEq

/-- The `(err, data)` pair `SQLite.prototype.execute` passes to its callback
(src/lib/sqlite.js lines 129-137): a prepare error is forwarded with `null`
data; after `run`, the data object `\x7bid, changes\x7d` is built only when
the error slot is `null`. -/
def executeCallbackArgs : ExecOutcome → Option DriverErr × Option RunInfo
  | ExecOutcome.prepareErr e => (some e, none)
  | ExecOutcome.runErr e => (some e, none)
  | ExecOutcome.ok info => (none, some info)

/-- The `(err, data)` pair `SQLite.prototype.get` passes to its callback
(src/lib/sqlite.js line 185): on success the row or `null`, on error
`null`. -/
def getCallbackArgs :
    Option DriverErr × Option (List (String × Val)) →
    Option DriverErr × Option (List (String × Val))
  | (none, d) => (none, d)
  | (some e, _) => (some e, none)

/-- The placeholder token `\x7bcolumn\x7d` written into hand-assembled SQL
text before `make` rewrites it to a driver-native `$column` token. -/
def ph (o : String) : List Char := lbrace :: (S o ++ [rbrace])

/-- Join a list of text fragments with a separator
(JavaScript `array.join(sep)`). -/
def joinWith (sep : List Char) (l : List (List Char)) : List Char :=
  List.intercalate sep l

/-- The pagination suffix of `findAll` (src/lib/sqlite.js lines 351-356): the
three-way branch appends LIMIT/OFFSET text; note the final branch renders the
`take` variable after the OFFSET keyword. -/
def pagination (take skip : Nat) : List Char :=
  if take ≠ 0 ∧ skip ≠ 0 then
    S " LIMIT " ++ natChars take ++ S " OFFSET " ++ natChars skip
  else if take ≠ 0 then
    S " LIMIT " ++ natChars take
  else if skip ≠ 0 then
    S " OFFSET " ++ natChars take
  else
    []

/-- The WHERE fragment contributed by an optional filter builder
(src/lib/sqlite.js lines 326-335): when the builder has at least one
fragment, the keyword plus the fragments joined with single spaces. -/
def whereClause (builder : Option QueryBuilder) : List Char :=
  match builder with
  | some b => if b.hasValue then S " WHERE " ++ joinWith (S " ") b.builder else []
  | none => []

/-- The ORDER BY body accumulated from an order builder (src/lib/sqlite.js
lines 341-344): only directives tagged `desc` contribute, joined by commas. -/
def orderSort (order : OrderBuilder) : List Char :=
  order.builder.foldl
    (fun sort o =>
      if o.type == "desc" then
        sort ++ (if sort.length > 0 then S ", " else []) ++ S o.name ++ S " DESC"
      else sort)
    []

/-- The SELECT text of `findAll` before pagination (src/lib/sqlite.js lines
308-348): the non-excluded columns in registration order, the table name, the
optional WHERE fragment and the optional ORDER BY fragment. -/
def findAllCore (obj : Schema) (schema : String) (builder : Option QueryBuilder)
    (order : Option OrderBuilder) (without : List String) : List Char :=
  let column := (obj.map (fun p => p.1)).filter (fun o => !(without.contains o))
  let sort := match order with
    | some ob => orderSort ob
    | none => []
  S "SELECT " ++ joinWith (S ", ") (column.map S) ++ S " FROM " ++
    prepareSchema (S schema) ++ whereClause builder ++
    (if sort.length > 0 then S " ORDER BY " ++ sort else [])

/-- The full SQL text assembled by `SQLite.prototype.findAll`
(src/lib/sqlite.js lines 300-358): schema lookup may throw
`SchemaNotDefined`; otherwise the core SELECT text followed by the
pagination suffix. -/
def findAllQuery (reg : List (String × Schema)) (schema : String)
    (builder : Option QueryBuilder) (order : Option OrderBuilder)
    (take skip : Nat) (without : List String) : Except JsError (List Char) :=
  match schemaLookup reg schema with
  | none => Except.error JsError.schemaNotDefined
  | some obj =>
    Except.ok (findAllCore obj schema builder order without ++ pagination take skip)

/-- The SQL text assembled by `SQLite.prototype.count`
(src/lib/sqlite.js lines 257-283). -/
def countQuery (reg : List (String × Schema)) (schema : String)
    (builder : Option QueryBuilder) : Except JsError (List Char) :=
  match schemaLookup reg schema with
  | none => Except.error JsError.schemaNotDefined
  | some _ =>
    Except.ok (S "SELECT COUNT(*) As value FROM " ++ prepareSchema (S schema) ++
      whereClause builder)

/-- The continuation `count` installs on its `scalar` call
(src/lib/sqlite.js lines 283-285): `callback(err, err === null ? data.value
: 0)`; reading `value` from a `null` row throws a TypeError, while reading a
missing field of an existing row yields `undefined`. -/
def countContinuation (res : Option DriverErr × Option (List (String × Val))) :
    Except JsFault (Option DriverErr × Val) :=
  match res with
  | (none, some row) => Except.ok (none, objGetD row "value")
  | (none, none) => Except.error JsFault.typeError
  | (some e, _) => Except.ok (some e, Val.num 0)

/-- Everything `SQLite.prototype.insert` builds synchronously before handing
the statement to `execute`. -/
structure InsertPrep where
  column : List String
  valuesPh : List (List Char)
  params : List (String × Val)
  query : List Char
  primary : Option PrimaryDesc
deriving DecidableEq

/-- The synchronous phase of `SQLite.prototype.insert` (src/lib/sqlite.js
lines 416-445): schema lookup may throw `SchemaNotDefined`; the primary-key
descriptor is fetched but never required; when the key is not
caller-supplied its name is appended to the exclusion list before the
column loop; the loop collects column names, brace placeholders and
parameter entries; finally the INSERT text is assembled. -/
def insertPrepare (reg : List (String × Schema)) (schema : String)
    (value : List (String × Val)) (without : List String) :
    Except JsError InsertPrep :=
  match schemaLookup reg schema with
  | none => Except.error JsError.schemaNotDefined
  | some obj =>
    let primary := primaryKeyOf obj
    let without := match primary with
      | some p => if !p.insert then without ++ [p.name] else without
      | none => without
    let column := (obj.map (fun p => p.1)).filter (fun o => !(without.contains o))
    let valuesPh := column.map ph
    let params := column.map (fun o => (o, objGetD value o))
    let query := S "INSERT INTO " ++ prepareSchema (S schema) ++ S "(" ++
      joinWith (S ",") (column.map S) ++ S ") VALUES(" ++
      joinWith (S ",") valuesPh ++ S ")"
    Except.ok ⟨column, valuesPh, params, query, primary⟩

/-- One invocation of the callback a statement operation was given:
the error slot, the record handed back, and the reported change count. -/
structure CallbackCall where
  err : Option DriverErr
  value : List (String × Val)
  changes : Nat
deriving DecidableEq

/-- The continuation `insert` installs on its `execute` call
(src/lib/sqlite.js lines 446-450): when the error slot is `null` the record
gains `primary.name = data.id` — reading `name` from a `null` descriptor or
`id` from `null` data throws a TypeError — and the callback is then invoked
as `callback(err, value, data.changes)`, whose argument `data.changes`
throws a TypeError when `data` is `null`. -/
def insertContinuation (primary : Option PrimaryDesc)
    (value : List (String × Val)) (res : Option DriverErr × Option RunInfo) :
    Except JsFault CallbackCall :=
  match res with
  | (none, data) =>
    match primary with
    | none => Except.error JsFault.typeError
    | some p =>
      match data with
      | none => Except.error JsFault.typeError
      | some info =>
        Except.ok ⟨none, objSet value p.name (Val.num (Int.ofNat info.lastID)), info.changes⟩
  | (some e, data) =>
    match data with
    | none => Except.error JsFault.typeError
    | some info => Except.ok ⟨some e, value, info.changes⟩

/-- Everything `SQLite.prototype.update` builds synchronously before handing
the statement to `execute`. -/
structure UpdatePrep where
  setFragments : List (List Char)
  params : List (String × Val)
  query : List Char
  primary : PrimaryDesc
deriving DecidableEq

/-- The synchronous phase of `SQLite.prototype.update` (src/lib/sqlite.js
lines 463-493): schema lookup may throw `SchemaNotDefined`; a missing
primary key throws `PrimaryKeyNotDefined` before any SQL text exists; the
key is always appended to the exclusion list so it never reaches the SET
list, while every column — the key included — is registered as a
parameter. -/
def updatePrepare (reg : List (String × Schema)) (schema : String)
    (value : List (String × Val)) (without : List String) :
    Except JsError UpdatePrep :=
  match schemaLookup reg schema with
  | none => Except.error JsError.schemaNotDefined
  | some obj =>
    match primaryKeyOf obj with
    | none => Except.error JsError.primaryKeyNotDefined
    | some primary =>
      let without := without ++ [primary.name]
      let setFragments :=
        ((obj.map (fun p => p.1)).filter (fun o => !(without.contains o))).map
          (fun o => S o ++ S "=" ++ ph o)
      let params := obj.map (fun p => (p.1, objGetD value p.1))
      let query := S "UPDATE " ++ prepareSchema (S schema) ++ S " SET " ++
        joinWith (S ",") setFragments ++ S " WHERE " ++ S primary.name ++
        S "=" ++ ph primary.name
      Except.ok ⟨setFragments, params, query, primary⟩

/-- The continuation `update` installs on its `execute` call
(src/lib/sqlite.js lines 494-496): `callback(err, value, data.changes)`,
whose argument `data.changes` throws a TypeError when `data` is `null`. -/
def updateContinuation (value : List (String × Val))
    (res : Option DriverErr × Option RunInfo) : Except JsFault CallbackCall :=
  match res with
  | (err, some info) => Except.ok ⟨err, value, info.changes⟩
  | (_, none) => Except.error JsFault.typeError

/-- Everything `SQLite.prototype.delete` builds synchronously before handing
the statement to `execute`. -/
structure DeletePrep where
  params : List (String × Val)
  query : List Char
  primary : PrimaryDesc
deriving DecidableEq

/-- The synchronous phase of `SQLite.prototype.delete` (src/lib/sqlite.js
lines 508-525): schema lookup may throw `SchemaNotDefined`; a missing
primary key throws `PrimaryKeyNotDefined` before any SQL text exists; only
the primary-key value is registered as a parameter. -/
def deletePrepare (reg : List (String × Schema)) (schema : String)
    (value : List (String × Val)) : Except JsError DeletePrep :=
  match schemaLookup reg schema with
  | none => Except.error JsError.schemaNotDefined
  | some obj =>
    match primaryKeyOf obj with
    | none => Except.error JsError.primaryKeyNotDefined
    | some primary =>
      let params := [(primary.name, objGetD value primary.name)]
      let query := S "DELETE FROM " ++ prepareSchema (S schema) ++ S " WHERE " ++
        S primary.name ++ S "=" ++ ph primary.name
      Except.ok ⟨params, query, primary⟩

/-- The continuation `delete` installs on its `execute` call
(src/lib/sqlite.js lines 527-529): `callback(err, value, data.changes)`,
whose argument `data.changes` throws a TypeError when `data` is `null`. -/
def deleteContinuation (value : List (String × Val))
    (res : Option DriverErr × Option RunInfo) : Except JsFault CallbackCall :=
  match res with
  | (err, some info) => Except.ok ⟨err, value, info.changes⟩
  | (_, none) => Except.error JsFault.typeError

/-- Everything `SQLite.prototype.findPK` builds synchronously before handing
the statement to `get`. -/
structure FindPKPrep where
  column : List String
  param : List (String × Val)
  query : List Char
  primary : PrimaryDesc
deriving DecidableEq

/-- The synchronous phase of `SQLite.prototype.findPK` (src/lib/sqlite.js
lines 374-404): schema lookup may throw `SchemaNotDefined`; a missing
primary key throws `PrimaryKeyNotDefined` before any SQL text exists;
otherwise the non-excluded columns are selected with a primary-key equality
and LIMIT 1. -/
def findPKPrepare (reg : List (String × Schema)) (schema : String)
    (value : Val) (without : List String) : Except JsError FindPKPrep :=
  match schemaLookup reg schema with
  | none => Except.error JsError.schemaNotDefined
  | some obj =>
    match primaryKeyOf obj with
    | none => Except.error JsError.primaryKeyNotDefined
    | some primary =>
      let column := (obj.map (fun p => p.1)).filter (fun o => !(without.contains o))
      let query := S "SELECT " ++ joinWith (S ", ") (column.map S) ++ S " FROM " ++
        prepareSchema (S schema) ++ S " WHERE " ++ S primary.name ++ S "=" ++
        ph primary.name ++ S " LIMIT 1"
      let param := [(primary.name, value)]
      Except.ok ⟨column, param, query, primary⟩

/-- Example schema from the spec's end-to-end property: an engine-generated
primary key `id` plus two caller-supplied columns. -/
def usersSchema : Schema :=
  [("id", ⟨true, false⟩), ("name", ⟨false, true⟩), ("age", ⟨false, true⟩)]

/-- Example schema with no primary-key column. -/
def noPkSchema : Schema :=
  [("name", ⟨false, true⟩), ("age", ⟨false, true⟩)]

/-- Example registry holding both example schemas. -/
def demoReg : List (String × Schema) :=
  [("users", usersSchema), ("logs", noPkSchema)]

/-- Example record for insert/update calls. -/
def demoValue : List (String × Val) :=
  [("name", Val.str (S "Peter")), ("age", Val.num 28)]

/-- Example driver-reported error. -/
def demoErr : DriverErr := ⟨"SQLITE_CONSTRAINT"⟩

/-- The SQL text `findAll` produces on the users schema with `take = 0` and
`skip = 5`. -/
def demoOffsetQuery : List Char := S "SELECT id, name, age FROM users OFFSET 0"

/-- Example timestamp used to exercise date normalization. -/
def demoDate : DateTime := ⟨2012, 3, 7, 15, 4, 9⟩

/-- Example parameter mapping holding a date and a number. -/
def demoParamMap : List (String × Val) :=
  [("born", Val.date demoDate), ("age", Val.num 28)]

/-- The fuel argument of the decimal renderer is irrelevant as long as it
exceeds the number being rendered. -/
theorem natCharsAux_congr (n : Nat) :
    ∀ (f₁ f₂ : Nat) (acc : List Char), n < f₁ → n < f₂ →
      natCharsAux f₁ n acc = natCharsAux f₂ n acc := by
  induction n using Nat.strong_induction_on with
  | _ n ih =>
    intro f₁ f₂ acc h₁ h₂
    cases f₁ with
    | zero => omega
    | succ a =>
      cases f₂ with
      | zero => omega
      | succ b =>
        by_cases h10 : n < 10
        · simp [natCharsAux, h10]
        · have hpos : 0 < n := by omega
          have hdiv : n / 10 < n := Nat.div_lt_self hpos (by omega)
          simp only [natCharsAux, if_neg h10]
          exact ih (n / 10) hdiv a b _ (by omega) (by omega)

/-- A number below `10 ^ k` renders into at most `k` digit characters. -/
theorem natCharsAux_length (n : Nat) :
    ∀ (acc : List Char) (k : Nat), 1 ≤ k → n < 10 ^ k →
      (natCharsAux (n + 1) n acc).length ≤ k + acc.length := by
  induction n using Nat.strong_induction_on with
  | _ n ih =>
    intro acc k hk hn
    by_cases h10 : n < 10
    · simp only [natCharsAux, if_pos h10, List.length_cons]
      omega
    · have hpos : 0 < n := by omega
      have hdiv : n / 10 < n := Nat.div_lt_self hpos (by omega)
      obtain ⟨k', rfl⟩ : ∃ k', k = k' + 1 := ⟨k - 1, by omega⟩
      have hk' : 1 ≤ k' := by
        rcases Nat.eq_zero_or_pos k' with h0 | h1
        · subst h0
          simp [pow_succ, pow_zero] at hn
          omega
        · exact h1
      have hdiv10 : n / 10 < 10 ^ k' := by
        rw [Nat.div_lt_iff_lt_mul (by omega : 0 < 10)]
        calc n < 10 ^ (k' + 1) := hn
          _ = 10 ^ k' * 10 := by rw [pow_succ]
      have step : natCharsAux (n + 1) n acc
          = natCharsAux (n / 10 + 1) (n / 10) (digitChar (n % 10) :: acc) := by
        have unfold1 : natCharsAux (n + 1) n acc
            = natCharsAux n (n / 10) (digitChar (n % 10) :: acc) := by
          simp [natCharsAux, h10]
        rw [unfold1]
        exact natCharsAux_congr (n / 10) n (n / 10 + 1) _ hdiv (Nat.lt_succ_self _)
      rw [step]
      have := ih (n / 10) hdiv (digitChar (n % 10) :: acc) k' hk' hdiv10
      simp only [List.length_cons] at this ⊢
      omega

/-- Digit-count bound for the decimal rendering. -/
theorem natChars_length (n k : Nat) (hk : 1 ≤ k) (hn : n < 10 ^ k) :
    (natChars n).length ≤ k := by
  have := natCharsAux_length n [] k hk hn
  simpa [natChars] using this

/-- A zero-padded field has exactly its nominal width whenever the number
fits. -/
theorem padNat_length (w n : Nat) (hw : 1 ≤ w) (hn : n < 10 ^ w) :
    (padNat w n).length = w := by
  have hlen := natChars_length n w hw hn
  simp only [padNat, List.length_append, List.length_replicate]
  omega

/-- The date format produces exactly nineteen characters on a valid
timestamp. -/
theorem formatDate_length (t : DateTime) (h : ValidDate t) :
    (formatDate t).length = 19 := by
  obtain ⟨h1, h2, h3, h4, h5, h6⟩ := h
  have e1 := padNat_length 4 t.y (by omega) (by norm_num; omega)
  have e2 := padNat_length 2 t.mo (by omega) (by norm_num; omega)
  have e3 := padNat_length 2 t.d (by omega) (by norm_num; omega)
  have e4 := padNat_length 2 t.h (by omega) (by norm_num; omega)
  have e5 := padNat_length 2 t.mi (by omega) (by norm_num; omega)
  have e6 := padNat_length 2 t.s (by omega) (by norm_num; omega)
  simp only [formatDate, List.length_append, e1, e2, e3, e4, e5, e6]
  rfl

/-- First-hit index of a predicate when the left part misses and the middle
element matches. -/
theorem findIdx?_append_cons (p : Char → Bool) :
    ∀ (pre : List Char) (x : Char) (post : List Char),
      (∀ a ∈ pre, p a = false) → p x = true →
      (pre ++ x :: post).findIdx? p = some pre.length := by
  intro pre
  induction pre with
  | nil =>
    intro x post _ hx
    simp [List.findIdx?_cons, hx]
  | cons a pre ih =>
    intro x post hpre hx
    have ha : p a = false := hpre a (List.mem_cons_self a pre)
    simp [List.findIdx?_cons, ha, ih x post (fun b hb => hpre b (List.mem_cons_of_mem a hb)) hx]

/-- Dropping past an appended prefix and one more element leaves the tail. -/
theorem drop_append_cons (pre : List Char) (x : Char) (post : List Char) :
    (pre ++ x :: post).drop (pre.length + 1) = post := by
  have h : pre ++ x :: post = (pre ++ [x]) ++ post := by simp
  have hl : (pre ++ [x]).length = pre.length + 1 := by simp
  rw [h, ← hl, List.drop_left]

/-- Two strings with the same character data are equal. -/
theorem S_inj {a b : String} (h : S a = S b) : a = b := by
  cases a with
  | mk la =>
    cases b with
    | mk lb =>
      simp only [S] at h
      exact congrArg String.mk h

/-- The brace-placeholder rendering is injective in the column name. -/
theorem ph_inj {a b : String} (h : ph a = ph b) : a = b := by
  simp only [ph, List.cons.injEq, true_and] at h
  exact S_inj (List.append_cancel_right h)

/-- Folding a pair list into a parameter builder accumulates exactly that
list after the already-present entries. -/
theorem addAll_params :
    ∀ (m : List (String × Val)) (b : ParameterBuilder),
      (ParameterBuilder.addAll b m).params = b.params ++ m := by
  intro m
  induction m with
  | nil =>
    intro b
    simp [ParameterBuilder.addAll]
  | cons p m ih =>
    intro b
    obtain ⟨k, v⟩ := p
    have h : ParameterBuilder.addAll b ((k, v) :: m)
        = ParameterBuilder.addAll (b.add k v) m := rfl
    rw [h, ih]
    simp [ParameterBuilder.add]

/-- The two sequential single-character replacements of the source equal the
one-pass normalization written from the spec. -/
theorem removeReplace_eq_templateSpec (s : List Char) :
    removeAllChar rbrace (replaceAllChar lbrace '$' s) = templateNormSpec s := by
  induction s with
  | nil => rfl
  | cons c s ih =>
    have hfil : ∀ (x : Char) (l : List Char), removeAllChar rbrace (x :: l)
        = if x = rbrace then removeAllChar rbrace l else x :: removeAllChar rbrace l := by
      intro x l
      by_cases h : x = rbrace
      · simp [removeAllChar, List.filter_cons, h]
      · simp [removeAllChar, List.filter_cons, h]
    have hmap : replaceAllChar lbrace '$' (c :: s)
        = (if c = lbrace then '$' else c) :: replaceAllChar lbrace '$' s := rfl
    have hspec : templateNormSpec (c :: s)
        = if c = lbrace then '$' :: templateNormSpec s
          else if c = rbrace then templateNormSpec s else c :: templateNormSpec s := rfl
    rw [hmap, hspec]
    by_cases hl : c = lbrace
    · rw [if_pos hl, if_pos hl, hfil,
        if_neg (by decide : ¬ ('$' : Char) = rbrace)]
      exact congrArg (fun l => '$' :: l) ih
    · rw [if_neg hl, if_neg hl, hfil]
      by_cases hr : c = rbrace
      · rw [if_pos hr, if_pos hr]
        exact ih
      · rw [if_neg hr, if_neg hr]
        exact congrArg (fun l => c :: l) ih

/-- C7: for every schema name whose first character is the marker, and which
contains the separator, prepareSchema strips everything up to and including
the first separator, leaving the remainder unchanged; for every name not
containing the marker at all, the output equals the input. -/
theorem prepareSchema_marker :
    (∀ (pre post : List Char), pre.head? = some '#' → '/' ∉ pre →
        prepareSchema (pre ++ '/' :: post) = post) ∧
      (∀ name : List Char, '#' ∉ name → prepareSchema name = name) := by
  constructor
  · intro pre post hhead hsep
    obtain ⟨t, rfl⟩ : ∃ t, pre = '#' :: t := by
      cases pre with
      | nil => simp at hhead
      | cons a t =>
        simp only [List.head?] at hhead
        exact ⟨t, by simp [Option.some.injEq] at hhead; rw [hhead]⟩
    have hidx : jsIndexOf (('#' :: t) ++ '/' :: post) '#' = 0 := by
      simp [jsIndexOf, List.findIdx?_cons]
    have hsl : jsIndexOf (('#' :: t) ++ '/' :: post) '/' = (('#' :: t).length : Int) := by
      have := findIdx?_append_cons (fun x => decide (x = '/')) ('#' :: t) '/' post
        (fun a ha => by
          simp only [decide_eq_false_iff_not]
          intro hEq
          exact hsep (hEq ▸ ha))
        (by simp)
      show (match List.findIdx? (fun x => decide (x = '/')) (('#' :: t) ++ '/' :: post) with
        | some i => (i : Int)
        | none => -1) = (('#' :: t).length : Int)
      rw [this]
    simp only [prepareSchema, hidx, hsl, jsSubstring]
    have harith : ((if True then ((('#' :: t).length : Int)) else 0) + 1).toNat
        = ('#' :: t).length + 1 := by
      simp only [if_true]
      omega
    rw [harith, drop_append_cons]
  · intro name hmem
    have hnone : name.findIdx? (fun x => x = '#') = none := by
      rw [List.findIdx?_eq_none_iff]
      intro x hx
      simp only [decide_eq_false_iff_not]
      intro hEq
      exact hmem (hEq ▸ hx)
    simp [prepareSchema, jsIndexOf, hnone, jsSubstring]

/-- Closed check for C7's two conditional branches on concrete names. -/
theorem prepareSchema_marker_check :
    prepareSchema (S "#routing/users") = S "users" ∧ prepareSchema (S "users") = S "users" := by
  constructor
  · exact prepareSchema_marker.1 (S "#routing") (S "users") (by decide) (by decide)
  · exact prepareSchema_marker.2 (S "users") (by decide)

/-- C9: make on a raw SQL template replaces every left brace by the dollar
marker and removes the brace closers, altering no other character and
substituting no value: textual output only. -/
theorem make_template_normalization (s : List Char) :
    make (MakeInput.strV s) = MakeOutput.text (templateNormSpec s) := by
  simp [make, removeReplace_eq_templateSpec]


/-- C1: for every findAll call on a registered schema, the generated SQL
ends with the LIMIT/OFFSET suffix dictated by the three-way branch: both
bounds non-zero gives LIMIT take OFFSET skip, take alone gives LIMIT take,
skip alone gives OFFSET take (the take variable, which that branch renders
after the OFFSET keyword), and with both bounds zero no pagination clause is
appended at all. -/
theorem findAll_pagination_policy (reg : List (String × Schema)) (schema : String)
    (builder : Option QueryBuilder) (order : Option OrderBuilder)
    (take skip : Nat) (without : List String) (obj : Schema) (q : List Char)
    (hobj : schemaLookup reg schema = some obj)
    (hq : findAllQuery reg schema builder order take skip without = Except.ok q) :
    (take ≠ 0 → skip ≠ 0 →
        List.IsSuffix (S " LIMIT " ++ natChars take ++ S " OFFSET " ++ natChars skip) q) ∧
      (take ≠ 0 → skip = 0 → List.IsSuffix (S " LIMIT " ++ natChars take) q) ∧
      (take = 0 → skip ≠ 0 → List.IsSuffix (S " OFFSET " ++ natChars take) q) ∧
      (take = 0 → skip = 0 → q = findAllCore obj schema builder order without) := by
  simp only [findAllQuery, hobj, Except.ok.injEq] at hq
  refine ⟨?_, ?_, ?_, ?_⟩
  · intro ht hs
    have hp : pagination take skip
        = S " LIMIT " ++ natChars take ++ S " OFFSET " ++ natChars skip := by
      simp [pagination, ht, hs]
    rw [← hq, hp]
    exact ⟨findAllCore obj schema builder order without, rfl⟩
  · intro ht hs
    subst hs
    have hp : pagination take 0 = S " LIMIT " ++ natChars take := by
      simp [pagination, ht]
    rw [← hq, hp]
    exact ⟨findAllCore obj schema builder order without, rfl⟩
  · intro ht hs
    subst ht
    have hp : pagination 0 skip = S " OFFSET " ++ natChars 0 := by
      simp [pagination, hs]
    rw [← hq, hp]
    exact ⟨findAllCore obj schema builder order without, rfl⟩
  · intro ht hs
    subst ht
    subst hs
    have hp : pagination 0 0 = [] := by
      simp [pagination]
    rw [← hq, hp, List.append_nil]

/-- Closed check for C1 at take 10 and skip 5 on the users schema. -/
theorem findAll_pagination_policy_check :
    List.IsSuffix (S " LIMIT " ++ natChars 10 ++ S " OFFSET " ++ natChars 5)
      (findAllCore usersSchema "users" none none [] ++ pagination 10 5) :=
  (findAll_pagination_policy demoReg "users" none none 10 5 [] usersSchema
    (findAllCore usersSchema "users" none none [] ++ pagination 10 5) rfl rfl).1
    (by decide) (by decide)

/-- C8 counterexample: with take 0 and skip 5 on the users schema, the
generated SQL is the concrete OFFSET-0 query, which does not end in
OFFSET 10 as the claim states. -/
theorem findAll_offset_quirk_cex :
    findAllQuery demoReg "users" none none 0 5 [] = Except.ok demoOffsetQuery ∧
      ¬ List.IsSuffix (S "OFFSET 10") demoOffsetQuery := by
  constructor
  · rfl
  · decide

/-- C8 (amended): findAll with take 10 and skip 5 produces SQL ending in
LIMIT 10 OFFSET 5; with take 10 and skip 0 it ends in LIMIT 10; with take 0
and skip 5 it ends in OFFSET 0 — the rendered offset-only value is the
(zeroed) take variable, not 10. -/
theorem findAll_pagination_examples (reg : List (String × Schema)) (schema : String)
    (builder : Option QueryBuilder) (order : Option OrderBuilder)
    (without : List String) (obj : Schema) (q1 q2 q3 : List Char)
    (hobj : schemaLookup reg schema = some obj)
    (h1 : findAllQuery reg schema builder order 10 5 without = Except.ok q1)
    (h2 : findAllQuery reg schema builder order 10 0 without = Except.ok q2)
    (h3 : findAllQuery reg schema builder order 0 5 without = Except.ok q3) :
    List.IsSuffix (S "LIMIT 10 OFFSET 5") q1 ∧ List.IsSuffix (S "LIMIT 10") q2 ∧
      List.IsSuffix (S "OFFSET 0") q3 := by
  simp only [findAllQuery, hobj, Except.ok.injEq] at h1 h2 h3
  refine ⟨?_, ?_, ?_⟩
  · rw [← h1]
    refine ⟨findAllCore obj schema builder order without ++ S " ", ?_⟩
    rw [List.append_assoc]
    exact congrArg (fun l => findAllCore obj schema builder order without ++ l)
      (by decide : S " " ++ S "LIMIT 10 OFFSET 5" = pagination 10 5)
  · rw [← h2]
    refine ⟨findAllCore obj schema builder order without ++ S " ", ?_⟩
    rw [List.append_assoc]
    exact congrArg (fun l => findAllCore obj schema builder order without ++ l)
      (by decide : S " " ++ S "LIMIT 10" = pagination 10 0)
  · rw [← h3]
    refine ⟨findAllCore obj schema builder order without ++ S " ", ?_⟩
    rw [List.append_assoc]
    exact congrArg (fun l => findAllCore obj schema builder order without ++ l)
      (by decide : S " " ++ S "OFFSET 0" = pagination 0 5)

/-- Closed check for the amended C8 statement on the users schema. -/
theorem findAll_pagination_examples_check :
    List.IsSuffix (S "LIMIT 10 OFFSET 5")
        (findAllCore usersSchema "users" none none [] ++ pagination 10 5) ∧
      List.IsSuffix (S "LIMIT 10")
        (findAllCore usersSchema "users" none none [] ++ pagination 10 0) ∧
      List.IsSuffix (S "OFFSET 0")
        (findAllCore usersSchema "users" none none [] ++ pagination 0 5) :=
  findAll_pagination_examples demoReg "users" none none [] usersSchema
    (findAllCore usersSchema "users" none none [] ++ pagination 10 5)
    (findAllCore usersSchema "users" none none [] ++ pagination 10 0)
    (findAllCore usersSchema "users" none none [] ++ pagination 0 5)
    rfl rfl rfl rfl

/-- C2 counterexample: when execution reports no error and no row, count's
continuation dereferences the null row and faults with a TypeError; it does
not deliver a null error with the count 0. -/
theorem count_missing_row_cex :
    countContinuation (getCallbackArgs (none, none)) ≠
        Except.ok ((none : Option DriverErr), Val.num 0) ∧
      countContinuation (getCallbackArgs (none, none)) = Except.error JsFault.typeError := by
  constructor
  · intro h
    exact Except.noConfusion (show Except.error JsFault.typeError
      = Except.ok ((none : Option DriverErr), Val.num 0) from h)
  · rfl

/-- C2 (amended): count's completion receives the count 0 exactly when
execution reports an error; with no error and a row it receives the row's
value field; with no error and no row the continuation dereferences the
null row and throws a TypeError rather than delivering 0. -/
theorem count_continuation_amended (res : Option DriverErr × Option (List (String × Val))) :
    (∀ e, res.1 = some e →
        countContinuation (getCallbackArgs res) = Except.ok (some e, Val.num 0)) ∧
      (∀ row, res = (none, some row) →
        countContinuation (getCallbackArgs res) = Except.ok (none, objGetD row "value")) ∧
      (res = (none, none) →
        countContinuation (getCallbackArgs res) = Except.error JsFault.typeError) := by
  obtain ⟨err, data⟩ := res
  refine ⟨?_, ?_, ?_⟩
  · intro e he
    simp only at he
    subst he
    rfl
  · intro row hr
    cases hr
    rfl
  · intro hr
    cases hr
    rfl

/-- Closed check for the amended C2 statement on the three result shapes. -/
theorem count_continuation_amended_check :
    countContinuation (getCallbackArgs (some demoErr, none))
        = Except.ok (some demoErr, Val.num 0) ∧
      countContinuation (getCallbackArgs (none, some [("value", Val.num 3)]))
        = Except.ok (none, Val.num 3) ∧
      countContinuation (getCallbackArgs (none, none)) = Except.error JsFault.typeError :=
  ⟨(count_continuation_amended (some demoErr, none)).1 demoErr rfl,
   (count_continuation_amended (none, some [("value", Val.num 3)])).2.1
     [("value", Val.num 3)] rfl,
   (count_continuation_amended (none, none)).2.2 rfl⟩

/-- C3 (code bug evaluation): when the driver reports a run error, execute
passes the error with null data, and each of the insert, update and delete
continuations then dereferences the null data object while building the
callback arguments, throwing a TypeError before the caller callback runs. -/
theorem write_error_continuations_fault :
    executeCallbackArgs (ExecOutcome.runErr demoErr) = (some demoErr, none) ∧
      insertContinuation (some ⟨"id", false⟩) demoValue (some demoErr, none)
          = Except.error JsFault.typeError ∧
      updateContinuation demoValue (some demoErr, none) = Except.error JsFault.typeError ∧
      deleteContinuation demoValue (some demoErr, none) = Except.error JsFault.typeError :=
  ⟨rfl, rfl, rfl, rfl⟩

/-- C5: update, delete and findPK on a registered schema with no primary-key
column throw PrimaryKeyNotDefined synchronously; the prepare phase yields
the thrown error and no SQL text, so the driver is never contacted. -/
theorem missing_primary_key_sync_throw (reg : List (String × Schema)) (schema : String)
    (value : List (String × Val)) (pkv : Val) (without : List String) (obj : Schema)
    (hobj : schemaLookup reg schema = some obj)
    (hpk : primaryKeyOf obj = none) :
    updatePrepare reg schema value without = Except.error JsError.primaryKeyNotDefined ∧
      deletePrepare reg schema value = Except.error JsError.primaryKeyNotDefined ∧
      findPKPrepare reg schema pkv without = Except.error JsError.primaryKeyNotDefined := by
  refine ⟨?_, ?_, ?_⟩ <;>
    simp [updatePrepare, deletePrepare, findPKPrepare, hobj, hpk]

/-- Closed check for C5 on the primary-key-less logs schema. -/
theorem missing_primary_key_sync_throw_check :
    updatePrepare demoReg "logs" demoValue [] = Except.error JsError.primaryKeyNotDefined ∧
      deletePrepare demoReg "logs" demoValue = Except.error JsError.primaryKeyNotDefined ∧
      findPKPrepare demoReg "logs" (Val.num 1) []
        = Except.error JsError.primaryKeyNotDefined :=
  missing_primary_key_sync_throw demoReg "logs" demoValue (Val.num 1) [] noPkSchema rfl rfl

/-- Skipping a non-matching head entry leaves a property read unchanged. -/
theorem objGet_cons_of_ne (p : String × Val) (m : List (String × Val)) (k : String)
    (hp : (p.1 == k) = false) : objGet (p :: m) k = objGet m k := by
  simp only [objGet, List.find?_cons, hp]

/-- Reading back a key just written by the JavaScript-style property write
yields the written value. -/
theorem objGet_objSet (k : String) (v : Val) :
    ∀ m : List (String × Val), objGet (objSet m k v) k = some v := by
  intro m
  induction m with
  | nil => simp [objSet, objGet]
  | cons p m ih =>
    by_cases hp : p.1 == k
    · have hany : (p :: m).any (fun q => q.1 == k) = true := by
        simp only [List.any_cons, hp, Bool.true_or]
      have hstep : objSet (p :: m) k v
          = (k, v) :: List.map (fun q => if q.1 == k then (k, v) else q) m := by
        simp only [objSet]
        rw [if_pos hany, List.map_cons, if_pos hp]
      rw [hstep]
      simp [objGet, List.find?_cons]
    · by_cases hany : m.any (fun q => q.1 == k)
      · have hany2 : (p :: m).any (fun q => q.1 == k) = true := by
          simp only [List.any_cons, hany, Bool.or_true]
        have hset : objSet m k v
            = List.map (fun q => if q.1 == k then (k, v) else q) m := by
          simp only [objSet]
          rw [if_pos hany]
        have hstep : objSet (p :: m) k v
            = p :: List.map (fun q => if q.1 == k then (k, v) else q) m := by
          simp only [objSet]
          rw [if_pos hany2, List.map_cons, if_neg hp]
        have hpf : (p.1 == k) = false := by simpa using hp
        rw [hstep, objGet_cons_of_ne p _ k hpf, ← hset]
        exact ih
      · have hany2 : ¬ (p :: m).any (fun q => q.1 == k) = true := by
          simp only [List.any_cons, Bool.or_eq_true, not_or]
          exact ⟨hp, hany⟩
        have hset : objSet m k v = m ++ [(k, v)] := by
          simp only [objSet]
          rw [if_neg hany]
        have hstep : objSet (p :: m) k v = p :: (m ++ [(k, v)]) := by
          simp only [objSet]
          rw [if_neg hany2]
          rfl
        have hpf : (p.1 == k) = false := by simpa using hp
        rw [hstep, objGet_cons_of_ne p _ k hpf, ← hset]
        exact ih

/-- C4: when the schema's primary key is engine-generated (not
caller-supplied on insert), insert appends it to the exclusion set before
column enumeration, so it appears in neither the column list nor the VALUES
placeholders; on success the caller's record gains the key set to the
driver's lastInsertId and the affected-row count is reported. -/
theorem insert_generated_key (reg : List (String × Schema)) (schema : String)
    (value : List (String × Val)) (without : List String) (obj : Schema)
    (pk : PrimaryDesc) (id ch : Nat)
    (hobj : schemaLookup reg schema = some obj)
    (hpk : primaryKeyOf obj = some pk)
    (hins : pk.insert = false) :
    ∃ prep : InsertPrep,
      insertPrepare reg schema value without = Except.ok prep ∧
        pk.name ∉ prep.column ∧
        ph pk.name ∉ prep.valuesPh ∧
        prep.primary = some pk ∧
        insertContinuation prep.primary value (none, some ⟨id, ch⟩)
          = Except.ok ⟨none, objSet value pk.name (Val.num (Int.ofNat id)), ch⟩ ∧
        objGet (objSet value pk.name (Val.num (Int.ofNat id))) pk.name
          = some (Val.num (Int.ofNat id)) := by
  have hnotmem : pk.name ∉ ((obj.map (fun p => p.1)).filter
      (fun o => !((without ++ [pk.name]).contains o))) := by
    intro hmem
    rw [List.mem_filter] at hmem
    obtain ⟨-, hcond⟩ := hmem
    have hin : pk.name ∈ without ++ [pk.name] :=
      List.mem_append_right without (List.mem_singleton.mpr rfl)
    simp [List.elem_eq_mem, hin] at hcond
  refine ⟨⟨(obj.map (fun p => p.1)).filter (fun o => !((without ++ [pk.name]).contains o)),
    ((obj.map (fun p => p.1)).filter (fun o => !((without ++ [pk.name]).contains o))).map ph,
    ((obj.map (fun p => p.1)).filter (fun o => !((without ++ [pk.name]).contains o))).map
      (fun o => (o, objGetD value o)),
    S "INSERT INTO " ++ prepareSchema (S schema) ++ S "(" ++
      joinWith (S ",") (((obj.map (fun p => p.1)).filter
        (fun o => !((without ++ [pk.name]).contains o))).map S) ++ S ") VALUES(" ++
      joinWith (S ",") (((obj.map (fun p => p.1)).filter
        (fun o => !((without ++ [pk.name]).contains o))).map ph) ++ S ")",
    some pk⟩, ?_, hnotmem, ?_, rfl, rfl, objGet_objSet pk.name (Val.num (Int.ofNat id)) value⟩
  · simp [insertPrepare, hobj, hpk, hins]
  · intro hmem
    rw [List.mem_map] at hmem
    obtain ⟨x, hx, hEq⟩ := hmem
    exact hnotmem (ph_inj hEq ▸ hx)

/-- Closed check for C4 on the users schema at lastInsertId 7. -/
theorem insert_generated_key_check :
    ∃ prep : InsertPrep,
      insertPrepare demoReg "users" demoValue [] = Except.ok prep ∧
        "id" ∉ prep.column ∧
        ph "id" ∉ prep.valuesPh ∧
        prep.primary = some ⟨"id", false⟩ ∧
        insertContinuation prep.primary demoValue (none, some ⟨7, 1⟩)
          = Except.ok ⟨none, objSet demoValue "id" (Val.num (Int.ofNat 7)), 1⟩ ∧
        objGet (objSet demoValue "id" (Val.num (Int.ofNat 7))) "id"
          = some (Val.num (Int.ofNat 7)) :=
  insert_generated_key demoReg "users" demoValue [] usersSchema ⟨"id", false⟩ 7 1 rfl rfl rfl

/-- C10: insert has no primary-key presence guard: on a registered schema
without a primary key it throws nothing, enumerates every non-excluded
column, and carries a null primary descriptor into its success
continuation, which then faults with a TypeError on the null descriptor. -/
theorem insert_no_pk_guard (reg : List (String × Schema)) (schema : String)
    (value : List (String × Val)) (without : List String) (obj : Schema)
    (hobj : schemaLookup reg schema = some obj)
    (hpk : primaryKeyOf obj = none) :
    ∃ prep : InsertPrep,
      insertPrepare reg schema value without = Except.ok prep ∧
        prep.column = (obj.map (fun p => p.1)).filter (fun o => !(without.contains o)) ∧
        prep.primary = none ∧
        (∀ id ch : Nat, insertContinuation prep.primary value (none, some ⟨id, ch⟩)
          = Except.error JsFault.typeError) := by
  refine ⟨⟨(obj.map (fun p => p.1)).filter (fun o => !(without.contains o)),
    ((obj.map (fun p => p.1)).filter (fun o => !(without.contains o))).map ph,
    ((obj.map (fun p => p.1)).filter (fun o => !(without.contains o))).map
      (fun o => (o, objGetD value o)),
    S "INSERT INTO " ++ prepareSchema (S schema) ++ S "(" ++
      joinWith (S ",") (((obj.map (fun p => p.1)).filter
        (fun o => !(without.contains o))).map S) ++ S ") VALUES(" ++
      joinWith (S ",") (((obj.map (fun p => p.1)).filter
        (fun o => !(without.contains o))).map ph) ++ S ")",
    none⟩, ?_, rfl, rfl, fun id ch => rfl⟩
  simp [insertPrepare, hobj, hpk]

/-- Closed check for C10 on the primary-key-less logs schema. -/
theorem insert_no_pk_guard_check :
    ∃ prep : InsertPrep,
      insertPrepare demoReg "logs" demoValue [] = Except.ok prep ∧
        prep.column = (noPkSchema.map (fun p => p.1)).filter
          (fun o => !(([] : List String).contains o)) ∧
        prep.primary = none ∧
        (∀ id ch : Nat, insertContinuation prep.primary demoValue (none, some ⟨id, ch⟩)
          = Except.error JsFault.typeError) :=
  insert_no_pk_guard demoReg "logs" demoValue [] noPkSchema rfl rfl

/-- C6: every normalized parameter key equals the dollar marker plus the
original key, date values are rendered to the exactly-19-character format,
all other values pass through unchanged, and a pre-accumulated builder
normalizes to the identical parameter set as the bare mapping. -/
theorem make_parameter_normalization (m : List (String × Val)) :
    ((makeMap m).map (fun p => p.1) = m.map (fun p => "$" ++ p.1)) ∧
      (∀ p ∈ m, ∀ t, p.2 = Val.date t → ValidDate t →
        makeVal p.2 = Val.str (formatDate t) ∧ (formatDate t).length = 19) ∧
      (∀ p ∈ m, (∀ t, p.2 ≠ Val.date t) → makeVal p.2 = p.2) ∧
      (make (MakeInput.pbV (ParameterBuilder.addAll ⟨[]⟩ m)) = make (MakeInput.mapV m)) ∧
      (∀ b : QueryBuilder, b.params = m → make (MakeInput.qbV b) = make (MakeInput.mapV m)) := by
  refine ⟨?_, ?_, ?_, ?_, ?_⟩
  · simp [makeMap, List.map_map]
  · intro p _ t hEq hval
    rw [hEq]
    exact ⟨rfl, formatDate_length t hval⟩
  · intro p _ hne
    cases hv : p.2 with
    | str s => rfl
    | num n => rfl
    | boolean b => rfl
    | null => rfl
    | undef => rfl
    | date t => exact absurd hv (hne t)
  · simp [make, addAll_params]
  · intro b hb
    simp [make, hb]

/-- Closed check for C6 on a mapping holding a date and a number. -/
theorem make_parameter_normalization_check :
    ((makeMap demoParamMap).map (fun p => p.1)
        = demoParamMap.map (fun p => "$" ++ p.1)) ∧
      (makeVal (Val.date demoDate) = Val.str (formatDate demoDate) ∧
        (formatDate demoDate).length = 19) ∧
      makeVal (Val.num 28) = Val.num 28 ∧
      make (MakeInput.pbV (ParameterBuilder.addAll ⟨[]⟩ demoParamMap))
        = make (MakeInput.mapV demoParamMap) :=
  ⟨(make_parameter_normalization demoParamMap).1,
   (make_parameter_normalization demoParamMap).2.1 ("born", Val.date demoDate)
     (List.mem_cons_self _ _) demoDate rfl (by norm_num [ValidDate, demoDate]),
   (make_parameter_normalization demoParamMap).2.2.1 ("age", Val.num 28)
     (List.mem_cons_of_mem _ (List.mem_cons_self _ _))
     (fun t h => Val.noConfusion h),
   (make_parameter_normalization demoParamMap).2.2.2.1⟩
